import Mathlib

set_option linter.unusedVariables false
set_option linter.unnecessarySeqFocus false

/-!
Shallow embedding of the request-handling core of the `https` file server
(src/ops.rs): the byte-range state machine, the path resolver, the file
encoding cache, the PUT write pipeline, the directory-listing ordering and
the port-binding bootstrap, together with theorems settling the frozen
claims about them.

Machine integers (`u16`, `u64`) are modelled as `Nat`, with an explicit
`% 2 ^ 16` at the one place where 16-bit overflow is reachable
(`try_ports`).  Rust strings are Lean `String`s, operated on through their
underlying character lists.  File contents are `List Nat` (byte lists).
-/

namespace Https

/-- A filesystem path, as its list of components below the filesystem root. -/
abbrev Path := List String

/-- Modelled from the spec: percent-decode, the compression codecs, the
encoding-name to file-extension table and the tunable constants
(MIN_ENCODING_SIZE, MAX_ENCODING_SIZE, MIN_ENCODING_GAIN,
BLACKLISTED_ENCODING_EXTENSIONS, INDEX_EXTENSIONS) live in util.rs, which is
not under src/; the spec lists them as external collaborator interfaces, so
they are abstracted as explicit parameters gathered in this record.
`encode_file` returns the compressed bytes on success and `none` on codec
failure. -/
structure Cfg where
  percent_decode : String → Option String
  minEncodingSize : Nat
  maxEncodingSize : Nat
  minEncodingGain : ℚ
  blacklistedEncodingExtensions : List String
  indexExtensions : List String
  encode_file : List Nat → String → Option (List Nat)
  encoding_extension : String → Option String

/-- The handler configuration, mirroring the `HttpHandler` fields of ops.rs
(the two caches are threaded explicitly as `EncState`). -/
structure HttpHandler where
  hosted_directory : Path
  follow_symlinks : Bool
  check_indices : Bool
  writes_temp_dir : Option Path
  encoded_temp_dir : Option Path

/-- One directory entry as observed by `read_dir` in ops.rs. -/
structure DirEntry where
  name : String
  isFile : Bool
  isSymlink : Bool
  deriving DecidableEq, Repr

/-- The observable parts of an `iron` response built by ops.rs: the status,
the body bytes (for file responses), the fields handed to `html_response`
(for generated pages), the sorted listing (for directory listings) and the
explicitly set headers.  `contentRange` is (range, instance_length). -/
structure Response where
  status : Nat
  body : List Nat := []
  page : Option (List String) := none
  listing : Option (List DirEntry) := none
  contentRange : Option ((Nat × Nat) × Nat) := none
  contentLength : Option Nat := none
  contentEncoding : Option String := none
  lastModified : Bool := false
  acceptRangesBytes : Bool := false
  location : Option String := none
  deriving DecidableEq, Repr

/-- The filesystem as seen through the `std::fs` calls ops.rs makes. -/
structure FS where
  exists_ : Path → Bool
  isFile : Path → Bool
  isDir : Path → Bool
  readLink : Path → Option Path
  content : Path → List Nat
  readDir : Path → List DirEntry

/-- Mirror of iron `headers::ByteRangeSpec`. -/
inductive ByteRangeSpec where
  | fromTo (frm tto : Nat)
  | allFrom (frm : Nat)
  | last (n : Nat)
  deriving DecidableEq, Repr

/-- Mirror of iron `headers::Range`. -/
inductive RangeHeader where
  | bytes (brs : List ByteRangeSpec)
  | unregistered
  deriving DecidableEq, Repr

/-- One `read(2)` call into a pre-allocated buffer with the file cursor at
`pos`: it fills the buffer with the available bytes, leaving the rest of the
buffer untouched, and its return count is what the caller chooses to ignore. -/
def read_into (content : List Nat) (pos : Nat) (buf : List Nat) : List Nat :=
  let r := (content.drop pos).take buf.length
  r ++ buf.drop r.length

/-- ops.rs `handle_get_file_closed_range` (lines 192-226): zero-initialized
buffer of `to + 1 - from` bytes, one seek, one unchecked read, status 206. -/
def handle_get_file_closed_range (content : List Nat) (frm tto : Nat) : Response :=
  let buf := List.replicate (tto + 1 - frm) 0
  { status := 206
    body := read_into content frm buf
    contentRange := some ((frm, tto), content.length)
    lastModified := true
    acceptRangesBytes := true }

/-- ops.rs `handle_get_file_opened_range` (lines 272-288): stream the file
from the seek position `seekPos` to its end, with the Content-Range start
`b_from` and Content-Length `clen` supplied by the caller. -/
def handle_get_file_opened_range (content : List Nat) (seekPos b_from clen : Nat) : Response :=
  { status := 206
    body := content.drop seekPos
    contentRange := some ((b_from, content.length - 1), content.length)
    contentLength := some clen
    lastModified := true
    acceptRangesBytes := true }

/-- ops.rs `handle_get_file_right_opened_range` (lines 228-248). -/
def handle_get_file_right_opened_range (content : List Nat) (frm : Nat) : Response :=
  handle_get_file_opened_range content frm frm (content.length - frm)

/-- ops.rs `handle_get_file_left_opened_range` (lines 250-270): seek to
`End(-n)`, i.e. position `len - n`. -/
def handle_get_file_left_opened_range (content : List Nat) (n : Nat) : Response :=
  handle_get_file_opened_range content (content.length - n) (content.length - n) n

/-- ops.rs `handle_get_file_empty_range` (lines 301-327): status 204 with a
Content-Range whose instance length is the real file length. -/
def handle_get_file_empty_range (content : List Nat) (frm tto : Nat) : Response :=
  { status := 204
    contentRange := some ((frm, tto), content.length)
    lastModified := true
    acceptRangesBytes := true }

/-- ops.rs `handle_invalid_range` (lines 290-299); the middle page field
(the display of the offending range and path) is abridged. -/
def handle_invalid_range (reason : String) : Response :=
  { status := 416
    page := some ["416 Range Not Satisfiable", "Requested range could not be fullfilled.", reason] }

/-- ops.rs `handle_get_file_range` (lines 161-190): the byte-range planner. -/
def handle_get_file_range (content : List Nat) (range : RangeHeader) : Response :=
  match range with
  | .bytes [spec] =>
    let flen := content.length
    match spec with
    | .fromTo frm tto => handle_get_file_closed_range content frm tto
    | .allFrom frm =>
      if flen < frm then handle_get_file_empty_range content frm flen
      else handle_get_file_right_opened_range content frm
    | .last n =>
      if flen < n then handle_get_file_empty_range content n flen
      else handle_get_file_left_opened_range content n
  | .bytes _ => handle_invalid_range "More than one range is unsupported."
  | .unregistered => handle_invalid_range "Custom ranges are unsupported."

/-- The file-cache key of ops.rs: (content digest, encoding name). -/
abbrev FsCacheKey := List Nat × String

/-- The explicit state of the on-disk file-encoding layer: the `cache_fs`
map of ops.rs (an association list with the most recent insertion first,
matching `HashMap` lookup-after-insert behaviour) and the contents of the
encoded temp directory. -/
structure EncState where
  cacheFs : List (FsCacheKey × (Path × Bool)) := []
  encDisk : List (Path × List Nat) := []
  deriving DecidableEq, Repr

/-- Modelled from the spec: `file_hash` (util.rs, not under src/) computes
the 32-byte md6 content digest of a file; the spec requires the CacheKey
digest to be injective on content (identical content must collide,
different content must not), so the digest is modelled as the content
itself. -/
def file_hash (fs : FS) (p : Path) : List Nat := fs.content p

/-- Modelled from the spec: `hash_string` (util.rs, not under src/) renders
a digest as a file name; modelled as an injective textual encoding. -/
def hash_string (digest : List Nat) : String :=
  String.intercalate "-" (digest.map toString)

/-- Extension of a file name, following Rust `Path::extension`: the part
after the final dot, none if there is no dot, and none for a leading-dot
name with no further dot. -/
def file_name_extension (name : String) : Option String :=
  match name.data.splitOn '.' with
  | [] => none
  | [_] => none
  | [[], _] => none
  | parts => some ⟨parts.getLastD []⟩

/-- Extension of the final component of a path (`req_p.extension()`). -/
def path_extension (p : Path) : Option String :=
  match p.getLast? with
  | none => none
  | some name => file_name_extension name

/-- Lower-cased character list of a string (`str::to_lowercase`). -/
def lowerData (s : String) : List Char := s.data.map Char.toLower

/-- The extension test of ops.rs line 348: a present extension must not be
on the blacklist under `UniCase` (case-insensitive) comparison; a missing
extension passes (`unwrap_or(true)`). -/
def extension_not_blacklisted (cfg : Cfg) (ext : Option String) : Bool :=
  match ext with
  | some s => !(cfg.blacklistedEncodingExtensions.any (fun b => lowerData b == lowerData s))
  | none => true

/-- The compression-eligibility gate of ops.rs lines 347-348:
`encoded_temp_dir` configured, `flen > MIN_ENCODING_SIZE`,
`flen < MAX_ENCODING_SIZE`, and the extension not blacklisted. -/
def encoding_eligible (cfg : Cfg) (h : HttpHandler) (flen : Nat) (ext : Option String) : Bool :=
  h.encoded_temp_dir.isSome && decide (cfg.minEncodingSize < flen) &&
    decide (flen < cfg.maxEncodingSize) && extension_not_blacklisted cfg ext

/-- The artifact path of ops.rs lines 392-398: the encoded temp dir joined
with the hashed digest, extended by the original extension and the
encoding extension (or the encoding name when no short extension exists). -/
def resp_path (cfg : Cfg) (h : HttpHandler) (digest : List Nat) (ext : Option String)
    (encoding : String) : Path :=
  let extn :=
    match ext, cfg.encoding_extension encoding with
    | some e, some enc => e ++ "." ++ enc
    | some e, none => e ++ "." ++ encoding
    | none, some enc => enc
    | none, none => encoding
  h.encoded_temp_dir.getD [] ++ [hash_string digest ++ "." ++ extn]

/-- The identity whole-file response of ops.rs lines 351-357 and 429-434:
status 200, Last-Modified, Accept-Ranges, the file itself as the body. -/
def identity_file_response (content : List Nat) : Response :=
  { status := 200
    body := content
    lastModified := true
    acceptRangesBytes := true }

/-- Bytes served when responding with the file at path `p`: an artifact in
the encoded temp dir if one is recorded there, otherwise the hosted file. -/
def diskContent (fs : FS) (st : EncState) (p : Path) : List Nat :=
  match st.encDisk.lookup p with
  | some c => c
  | none => fs.content p

/-- ops.rs `handle_get_file_encoded` (lines 360-435).  `accEnc` is the
already-negotiated encoding (`response_encoding` applied to the request's
Accept-Encoding header; `response_encoding` is util code, outside src/).
On a positive cache hit the artifact is served with Content-Encoding and no
Last-Modified; on a negative hit the recorded path (the original file) is
served with Last-Modified; on a miss the file is compressed, and the
artifact is kept or deleted according to the gain test, falling through to
the identity response in the rejection and codec-failure cases. -/
def handle_get_file_encoded (cfg : Cfg) (h : HttpHandler) (fs : FS) (st : EncState)
    (req_p : Path) (accEnc : Option String) : Response × EncState :=
  match accEnc with
  | none => (identity_file_response (fs.content req_p), st)
  | some encoding =>
    let cache_key : FsCacheKey := (file_hash fs req_p, encoding)
    match st.cacheFs.lookup cache_key with
    | some (rp, true) =>
      ({ status := 200
         body := diskContent fs st rp
         contentEncoding := some encoding
         acceptRangesBytes := true }, st)
    | some (rp, false) =>
      ({ status := 200
         body := diskContent fs st rp
         lastModified := true
         acceptRangesBytes := true }, st)
    | none =>
      let rp := resp_path cfg h cache_key.1 (path_extension req_p) encoding
      match cfg.encode_file (fs.content req_p) encoding with
      | some comp =>
        let st1 : EncState := { st with encDisk := (rp, comp) :: st.encDisk }
        let gain : ℚ := ((fs.content req_p).length : ℚ) / (comp.length : ℚ)
        if gain < cfg.minEncodingGain then
          let st2 : EncState :=
            { cacheFs := (cache_key, (req_p, false)) :: st1.cacheFs
              encDisk := st1.encDisk.eraseP (fun e => e.1 == rp) }
          (identity_file_response (fs.content req_p), st2)
        else
          let st2 : EncState := { st1 with cacheFs := (cache_key, (rp, true)) :: st1.cacheFs }
          ({ status := 200
             body := comp
             contentEncoding := some encoding
             acceptRangesBytes := true }, st2)
      | none => (identity_file_response (fs.content req_p), st)

/-- ops.rs `handle_get_file` (lines 329-358): gate on compression
eligibility, otherwise serve the file raw. -/
def handle_get_file (cfg : Cfg) (h : HttpHandler) (fs : FS) (st : EncState)
    (req_p : Path) (accEnc : Option String) : Response × EncState :=
  let content := fs.content req_p
  if encoding_eligible cfg h content.length (path_extension req_p) then
    handle_get_file_encoded cfg h fs st req_p accEnc
  else
    (identity_file_response content, st)

/-- The symlink-following while-loop of `parse_requested_path` (ops.rs
lines 822-825), with explicit fuel standing in for the unbounded loop of
the source (the spec flags the unboundedness as a robustness gap). -/
def resolve_links (fs : FS) : Nat → Path → Bool → Path × Bool
  | 0, cur, sk => (cur, sk)
  | fuel + 1, cur, sk =>
    match fs.readLink cur with
    | some newlink => resolve_links fs fuel newlink true
    | none => (cur, sk)

/-- The fold body of `parse_requested_path` (ops.rs lines 815-827): decode
the segment (recording a sticky error and skipping the segment on failure),
then follow symlinks. -/
def parse_step (cfg : Cfg) (fs : FS) (fuel : Nat) (st : Path × Bool × Bool) (pp : String) :
    Path × Bool × Bool :=
  let cur := st.1
  let sk := st.2.1
  let err := st.2.2
  let dec := cfg.percent_decode pp
  let cur := match dec with
    | some s => cur ++ [s]
    | none => cur
  let err := err || dec.isNone
  let rl := resolve_links fs fuel cur sk
  (rl.1, rl.2, err)

/-- ops.rs `parse_requested_path` (lines 814-829): fold the non-empty URL
segments over `parse_step`, starting from the hosted root. -/
def parse_requested_path (cfg : Cfg) (fs : FS) (fuel : Nat) (h : HttpHandler)
    (urlPath : List String) : Path × Bool × Bool :=
  (urlPath.filter (fun p => !p.data.isEmpty)).foldl (parse_step cfg fs fuel)
    (h.hosted_directory, false, false)

/-- Modelled from the spec: `url_path` (util.rs, not under src/) renders
the request URL path for display. -/
def url_path (urlPath : List String) : String := String.intercalate "/" urlPath

/-- ops.rs `handle_generated_response_encoding` (lines 770-812): we record
the status and the fields handed to `html_response`.  The generated-content
cache (`cache_gen`) and `encode_str` affect only the transfer encoding of
the body bytes, never the status or these fields, and no claim concerns
them, so they are not modelled. -/
def handle_generated_response_encoding (st : Nat) (page : List String) : Response :=
  { status := st, page := some page }

/-- ops.rs `handle_invalid_url` (lines 124-141). -/
def handle_invalid_url (cause : String) : Response :=
  handle_generated_response_encoding 400 ["400 Bad Request", "The request URL was invalid.", cause]

/-- ops.rs `handle_nonexistant` (lines 143-159); the page text is abridged
(apostrophes and quoting dropped). -/
def handle_nonexistant (urlPath : List String) : Response :=
  handle_generated_response_encoding 404
    ["404 Not Found", "The requested entity " ++ url_path urlPath ++ " does not exist.", ""]

/-- Lexicographic comparison of character lists, mirroring Rust `String`
ordering (shorter list first on a tie). -/
def charListLe : List Char → List Char → Bool
  | [], _ => true
  | _ :: _, [] => false
  | a :: as, b :: bs =>
    if a < b then true
    else if b < a then false
    else charListLe as bs

/-- The listing comparator of ops.rs lines 519-523: the tuple
(is_file, lowercase name) under Rust tuple ordering. -/
def entry_le (a b : DirEntry) : Bool :=
  (!a.isFile && b.isFile) ||
    ((a.isFile == b.isFile) && charListLe (lowerData a.name) (lowerData b.name))

/-- Insertion of an element into a sorted list.  The source sorts with
lazysort (a quicksort); only the ordering of the output matters to the
claims, so sorting is modelled by a structurally recursive insertion sort. -/
def insert_sorted {α : Type} (le : α → α → Bool) (a : α) : List α → List α
  | [] => [a]
  | b :: bs => if le a b then a :: b :: bs else b :: insert_sorted le a bs

/-- Comparison sort by a boolean comparator (`lazysort::SortedBy`). -/
def sorted_by {α : Type} (le : α → α → Bool) : List α → List α
  | [] => []
  | a :: as => insert_sorted le a (sorted_by le as)

/-- The entry sequence of `handle_get_dir_listing` (ops.rs lines 515-523):
filter out symlinks when not following them, then sort by
(is_file, lowercase name). -/
def dir_listing_entries (h : HttpHandler) (entries : List DirEntry) : List DirEntry :=
  sorted_by entry_le (entries.filter (fun f => h.follow_symlinks || !f.isSymlink))

/-- ops.rs `handle_get_dir_listing` (lines 484-566): a 200 response whose
rows follow the sorted entry sequence (the HTML row rendering around each
entry is not modelled; the order is what the claims concern). -/
def handle_get_dir_listing (h : HttpHandler) (fs : FS) (req_p : Path) : Response :=
  { status := 200, listing := some (dir_listing_entries h (fs.readDir req_p)) }

/-- ops.rs `handle_get_dir_index_no_slash` (lines 462-482). -/
def handle_get_dir_index_no_slash (urlPath : List String) : Response :=
  { status := 301, location := some (url_path urlPath ++ "/") }

/-- ops.rs `handle_get_dir` (lines 437-460): the index search over
INDEX_EXTENSIONS, the trailing-slash redirect, and the listing fallback. -/
def handle_get_dir (cfg : Cfg) (h : HttpHandler) (fs : FS) (st : EncState) (req_p : Path)
    (urlPath : List String) (accEnc : Option String) : Response :=
  if h.check_indices then
    match cfg.indexExtensions.find? (fun e => fs.exists_ (req_p ++ ["index." ++ e])) with
    | some e =>
      if urlPath.getLast? == some "" then
        (handle_get_file cfg h fs st (req_p ++ ["index." ++ e]) accEnc).1
      else
        handle_get_dir_index_no_slash urlPath
    | none => handle_get_dir_listing h fs req_p
  else
    handle_get_dir_listing h fs req_p

/-- ops.rs `handle_get` (lines 106-122): the GET dispatcher. -/
def handle_get (cfg : Cfg) (h : HttpHandler) (fs : FS) (st : EncState) (fuel : Nat)
    (urlPath : List String) (range : Option RangeHeader) (accEnc : Option String) : Response :=
  let pr := parse_requested_path cfg fs fuel h urlPath
  let req_p := pr.1
  let symlink := pr.2.1
  let url_err := pr.2.2
  let file := fs.isFile req_p
  if url_err then
    handle_invalid_url "<p>Percent-encoding decoded to invalid UTF-8.</p>"
  else if !fs.exists_ req_p || (symlink && !h.follow_symlinks) then
    handle_nonexistant urlPath
  else if file then
    match range with
    | some rng => handle_get_file_range (fs.content req_p) rng
    | none => (handle_get_file cfg h fs st req_p accEnc).1
  else
    handle_get_dir cfg h fs st req_p urlPath accEnc

/-- A filesystem after a file write: the target path now exists, is a file,
and holds `data`. -/
def fs_set_file (fs : FS) (p : Path) (data : List Nat) : FS :=
  { fs with
    exists_ := fun q => q == p || fs.exists_ q
    isFile := fun q => q == p || fs.isFile q
    content := fun q => if q == p then data else fs.content q }

/-- A filesystem after `create_dir_all d`: every path ending a component
sequence of `d` now exists as a directory. -/
def fs_mkdirs (fs : FS) (d : Path) : FS :=
  { fs with
    exists_ := fun q => q.isPrefixOf d || fs.exists_ q
    isDir := fun q => q.isPrefixOf d || fs.isDir q }

/-- ops.rs `handle_put_file` (lines 650-675): record prior existence, stage
the body in the writes temp dir under the final path component, create the
missing parents, copy the staged file to the destination, and answer 204
for an overwrite and 201 for a creation. -/
def handle_put_file (h : HttpHandler) (fs : FS) (req_p : Path) (body : List Nat) :
    Response × FS :=
  let existant := fs.exists_ req_p
  let temp_dir := h.writes_temp_dir.getD []
  let temp_file_p := temp_dir ++ [req_p.getLastD ""]
  let fs1 := fs_set_file fs temp_file_p body
  let fs2 := fs_mkdirs fs1 req_p.dropLast
  let fs3 := fs_set_file fs2 req_p (fs1.content temp_file_p)
  ({ status := if existant then 204 else 201 }, fs3)

/-- Modelled from the spec: `detect_file_as_dir` (util.rs, not under src/)
checks whether materializing `p` would require treating an existing file as
a directory component, i.e. whether some proper ancestor of `p` is an
existing file. -/
def detect_file_as_dir (fs : FS) (p : Path) : Bool :=
  (List.range p.length).any (fun i => fs.isFile (p.take i))

/-- ops.rs `handle_put` (lines 568-587): the PUT dispatcher, with its
rejections in source order (writes disabled, directory target,
file-as-directory, Content-Range present); page texts are abridged. -/
def handle_put (cfg : Cfg) (h : HttpHandler) (fs : FS) (fuel : Nat) (urlPath : List String)
    (hasContentRange : Bool) (body : List Nat) : Response × FS :=
  if h.writes_temp_dir.isNone then
    (handle_generated_response_encoding 403
      ["403 Forbidden", "This feature is currently disabled.", "-w"], fs)
  else
    let pr := parse_requested_path cfg fs fuel h urlPath
    let req_p := pr.1
    let url_err := pr.2.2
    if url_err then
      (handle_invalid_url "<p>Percent-encoding decoded to invalid UTF-8.</p>", fs)
    else if fs.isDir req_p then
      (handle_generated_response_encoding 405
        ["405 Method Not Allowed", "Cannot PUT on a directory.",
         "OPTIONS, GET, DELETE, HEAD, and TRACE"], fs)
    else if detect_file_as_dir fs req_p then
      (handle_invalid_url "<p>Attempted to use file as directory.</p>", fs)
    else if hasContentRange then
      (handle_generated_response_encoding 400
        ["400 Bad Request", "RFC7231 forbids partial-content PUT requests.", ""], fs)
    else
      handle_put_file h fs req_p body

/-- Substring containment on character lists (`str::contains`). -/
def contains_sub (s pat : List Char) : Bool :=
  (List.range (s.length + 1)).any (fun i => pat.isPrefixOf (s.drop i))

/-- Result of `try_ports`: either a listening socket on a port, or an
`Error::Io` whose `more` field is the optional extra message. -/
inductive TryPortsResult where
  | listening (port : Nat)
  | ioErr (more : Option String)
  deriving DecidableEq, Repr

/-- The loop body of `try_ports` (ops.rs lines 870-883) over an explicit
port list.  `bind p = none` models a successful bind, `bind p = some msg` a
bind error with display message `msg`. -/
def try_ports_loop (bind : Nat → Option String) : List Nat → TryPortsResult
  | [] => .ioErr (some "no free ports")
  | port :: rest =>
    match bind port with
    | none => .listening port
    | some msg =>
      if !(contains_sub msg.data "port".data) then .ioErr none
      else try_ports_loop bind rest

/-- ops.rs `try_ports` (lines 869-890): iterate `from..up_to + 1` in `u16`
arithmetic (so the upper bound is computed modulo 2^16) and run the loop. -/
def try_ports (bind : Nat → Option String) (frm up_tto : Nat) : TryPortsResult :=
  try_ports_loop bind (List.range' frm ((up_tto + 1) % 2 ^ 16 - frm))

/-! Concrete configurations and filesystems used by witnesses and
counterexamples. -/

/-- A configuration with a [4, 8] size window, a gain threshold of 6, and a
codec that always compresses to the single byte `[9]`. -/
def cfgW : Cfg :=
  { percent_decode := fun s => some s
    minEncodingSize := 4
    maxEncodingSize := 8
    minEncodingGain := 6
    blacklistedEncodingExtensions := ["png"]
    indexExtensions := ["html"]
    encode_file := fun _ _ => some [9]
    encoding_extension := fun _ => some "gz" }

/-- Like `cfgW`, but percent-decoding fails on the segment `%FF`. -/
def cfgFail : Cfg :=
  { cfgW with percent_decode := fun s => if s == "%FF" then none else some s }

/-- A handler with an encoded temp dir and no write support. -/
def hEnc : HttpHandler := ⟨["root"], false, false, none, some ["enc"]⟩

/-- A handler with neither temp dir, not following symlinks. -/
def hPlain : HttpHandler := ⟨["root"], false, false, none, none⟩

/-- A handler with write support enabled. -/
def hWrites : HttpHandler := ⟨["root"], false, false, some ["tmp"], none⟩

/-- A filesystem hosting the single 4-byte file root/f. -/
def fsFile : FS :=
  { exists_ := fun p => p == ["root", "f"]
    isFile := fun p => p == ["root", "f"]
    isDir := fun _ => false
    readLink := fun _ => none
    content := fun p => if p == ["root", "f"] then [1, 2, 3, 4] else []
    readDir := fun _ => [] }

/-- Like `fsFile`, but root/f holds 5 bytes. -/
def fsFile5 : FS :=
  { fsFile with content := fun p => if p == ["root", "f"] then [1, 2, 3, 4, 5] else [] }

/-- A filesystem where root/a is a symlink to the existing file tgt. -/
def fsLink : FS :=
  { exists_ := fun p => p == ["tgt"]
    isFile := fun p => p == ["tgt"]
    isDir := fun _ => false
    readLink := fun p => if p == ["root", "a"] then some ["tgt"] else none
    content := fun _ => []
    readDir := fun _ => [] }

/-- A filesystem where the literal (undecoded) path root/%FF exists. -/
def fsRaw : FS :=
  { exists_ := fun p => p == ["root", "%FF"]
    isFile := fun p => p == ["root", "%FF"]
    isDir := fun _ => false
    readLink := fun _ => none
    content := fun _ => []
    readDir := fun _ => [] }

/-- A filesystem holding only the empty hosted root directory. -/
def fsRoot : FS :=
  { exists_ := fun p => p == ["root"]
    isFile := fun _ => false
    isDir := fun p => p == ["root"]
    readLink := fun _ => none
    content := fun _ => []
    readDir := fun _ => [] }

/-! Helper lemmas: the lexicographic comparator is a total preorder, the
insertion sort produces pairwise-sorted output, the resolver fold keeps its
error flag sticky, and the port loop behaves pointwise. -/

theorem charListLe_trans : ∀ xs ys zs : List Char,
    charListLe xs ys = true → charListLe ys zs = true → charListLe xs zs = true := by
  intro xs
  induction xs with
  | nil => intro ys zs h1 h2; rfl
  | cons a as ih =>
    intro ys zs h1 h2
    match ys, zs with
    | [], _ => simp [charListLe] at h1
    | _ :: _, [] => simp [charListLe] at h2
    | b :: bs, c :: cs =>
      simp only [charListLe] at h1 h2 ⊢
      rcases lt_trichotomy a b with hab | hab | hab
      · rcases lt_trichotomy b c with hbc | hbc | hbc
        · simp [lt_trans hab hbc]
        · subst hbc; simp [hab]
        · simp [lt_asymm hbc, hbc] at h2
      · subst hab
        rcases lt_trichotomy a c with hac | hac | hac
        · simp [hac]
        · subst hac
          simp only [lt_self_iff_false, if_false] at h1 h2 ⊢
          exact ih _ _ h1 h2
        · simp [lt_asymm hac, hac] at h2
      · simp [lt_asymm hab, hab] at h1

theorem charListLe_total : ∀ xs ys : List Char,
    charListLe xs ys = true ∨ charListLe ys xs = true := by
  intro xs
  induction xs with
  | nil => intro ys; left; rfl
  | cons a as ih =>
    intro ys
    match ys with
    | [] => right; rfl
    | b :: bs =>
      simp only [charListLe]
      rcases lt_trichotomy a b with h | h | h
      · left; simp [h]
      · subst h
        simp only [lt_self_iff_false, if_false]
        exact ih bs
      · right; simp [h, lt_asymm h]

theorem entry_le_trans : ∀ a b c : DirEntry,
    entry_le a b = true → entry_le b c = true → entry_le a c = true := by
  intro a b c h1 h2
  unfold entry_le at h1 h2 ⊢
  cases hA : a.isFile <;> cases hB : b.isFile <;> cases hC : c.isFile <;>
    simp [hA, hB, hC] at h1 h2 ⊢ <;>
    exact charListLe_trans _ _ _ h1 h2

theorem entry_le_total : ∀ a b : DirEntry, (entry_le a b || entry_le b a) = true := by
  intro a b
  unfold entry_le
  cases hA : a.isFile <;> cases hB : b.isFile <;> simp [hA, hB] <;>
    rcases charListLe_total (lowerData a.name) (lowerData b.name) with h | h <;> simp [h]

theorem mem_insert_sorted {α : Type} (le : α → α → Bool) (a x : α) :
    ∀ l : List α, x ∈ insert_sorted le a l ↔ x = a ∨ x ∈ l := by
  intro l
  induction l with
  | nil => simp [insert_sorted]
  | cons b bs ih =>
    simp only [insert_sorted]
    by_cases h : le a b = true
    · simp [h]
    · simp only [if_neg h, List.mem_cons, ih]
      tauto

theorem pairwise_insert_sorted {α : Type} (le : α → α → Bool)
    (htrans : ∀ x y z, le x y = true → le y z = true → le x z = true)
    (htotal : ∀ x y, (le x y || le y x) = true) (a : α) :
    ∀ l : List α, l.Pairwise (fun x y => le x y = true) →
      (insert_sorted le a l).Pairwise (fun x y => le x y = true) := by
  intro l
  induction l with
  | nil => intro _; simp [insert_sorted]
  | cons b bs ih =>
    intro hp
    rcases List.pairwise_cons.mp hp with ⟨hb, hbs⟩
    simp only [insert_sorted]
    by_cases h : le a b = true
    · rw [if_pos h]
      refine List.pairwise_cons.mpr ⟨?_, hp⟩
      intro x hx
      rcases List.mem_cons.mp hx with hx | hx
      · subst hx; exact h
      · exact htrans a b x h (hb x hx)
    · have hba : le b a = true := by
        have := htotal a b
        cases hab : le a b <;> cases hba2 : le b a <;>
          simp [hab, hba2] at this ⊢ <;> simp [hab] at h
      rw [if_neg h]
      refine List.pairwise_cons.mpr ⟨?_, ih hbs⟩
      intro x hx
      rcases (mem_insert_sorted le a x bs).mp hx with hx | hx
      · subst hx; exact hba
      · exact hb x hx

theorem pairwise_sorted_by {α : Type} (le : α → α → Bool)
    (htrans : ∀ x y z, le x y = true → le y z = true → le x z = true)
    (htotal : ∀ x y, (le x y || le y x) = true) :
    ∀ l : List α, (sorted_by le l).Pairwise (fun x y => le x y = true) := by
  intro l
  induction l with
  | nil => simp [sorted_by]
  | cons a as ih => exact pairwise_insert_sorted le htrans htotal a _ ih

theorem parse_step_err (cfg : Cfg) (fs : FS) (fuel : Nat) (st : Path × Bool × Bool)
    (pp : String) :
    (parse_step cfg fs fuel st pp).2.2 = (st.2.2 || (cfg.percent_decode pp).isNone) := rfl

theorem parse_fold_err_sticky (cfg : Cfg) (fs : FS) (fuel : Nat) :
    ∀ (l : List String) (init : Path × Bool × Bool), init.2.2 = true →
      (l.foldl (parse_step cfg fs fuel) init).2.2 = true := by
  intro l
  induction l with
  | nil => intro init h; exact h
  | cons p ps ih =>
    intro init h
    simp only [List.foldl_cons]
    exact ih _ (by rw [parse_step_err, h, Bool.true_or])

theorem parse_fold_err_of_fail (cfg : Cfg) (fs : FS) (fuel : Nat) (s : String)
    (hfail : cfg.percent_decode s = none) :
    ∀ (l : List String) (init : Path × Bool × Bool), s ∈ l →
      (l.foldl (parse_step cfg fs fuel) init).2.2 = true := by
  intro l
  induction l with
  | nil => intro init h; cases h
  | cons p ps ih =>
    intro init hmem
    simp only [List.foldl_cons]
    rcases List.mem_cons.mp hmem with h | h
    · subst h
      exact parse_fold_err_sticky cfg fs fuel ps _
        (by rw [parse_step_err, hfail]; simp)
    · exact ih _ h

theorem try_ports_loop_all_in_use (bind : Nat → Option String) :
    ∀ l : List Nat,
      (∀ p ∈ l, ∃ m, bind p = some m ∧ contains_sub m.data "port".data = true) →
      try_ports_loop bind l = .ioErr (some "no free ports") := by
  intro l
  induction l with
  | nil => intro _; rfl
  | cons q rest ih =>
    intro hall
    obtain ⟨m, hm, hc⟩ := hall q (by simp)
    simp only [try_ports_loop, hm, hc, Bool.not_true, Bool.false_eq_true, if_false]
    exact ih (fun p hp => hall p (by simp [hp]))

theorem try_ports_loop_first_success (bind : Nat → Option String) :
    ∀ (l1 : List Nat) (q : Nat) (l2 : List Nat),
      (∀ p ∈ l1, ∃ m, bind p = some m ∧ contains_sub m.data "port".data = true) →
      bind q = none →
      try_ports_loop bind (l1 ++ q :: l2) = .listening q := by
  intro l1
  induction l1 with
  | nil => intro q l2 _ hq; simp [try_ports_loop, hq]
  | cons a rest ih =>
    intro q l2 hall hq
    obtain ⟨m, hm, hc⟩ := hall a (by simp)
    simp only [List.cons_append, try_ports_loop, hm, hc, Bool.not_true, Bool.false_eq_true,
      if_false]
    exact ih q l2 (fun p hp => hall p (by simp [hp])) hq

theorem try_ports_loop_fatal (bind : Nat → Option String) :
    ∀ (l1 : List Nat) (q : Nat) (l2 : List Nat) (m : String),
      (∀ p ∈ l1, ∃ m2, bind p = some m2 ∧ contains_sub m2.data "port".data = true) →
      bind q = some m → contains_sub m.data "port".data = false →
      try_ports_loop bind (l1 ++ q :: l2) = .ioErr none := by
  intro l1
  induction l1 with
  | nil =>
    intro q l2 m _ hq hc
    simp [try_ports_loop, hq, hc]
  | cons a rest ih =>
    intro q l2 m hall hq hc
    obtain ⟨m2, hm2, hc2⟩ := hall a (by simp)
    simp only [List.cons_append, try_ports_loop, hm2, hc2, Bool.not_true, Bool.false_eq_true,
      if_false]
    exact ih q l2 m (fun p hp => hall p (by simp [hp])) hq hc

/-! Claim theorems. -/

/-- C1, counterexample: the claim says that an open-ended range `bytes=A-`
with A ≥ L answers 204, but the source tests `flen < from`, so at A = L = 1
the code answers 206 (an empty right-opened range), not 204. -/
theorem C1_counterexample :
    ([7] : List Nat).length ≤ 1 ∧
    (handle_get_file_range [7] (.bytes [.allFrom 1])).status = 206 ∧
    ¬ (handle_get_file_range [7] (.bytes [.allFrom 1])).status = 204 := by
  refine ⟨by decide, rfl, by decide⟩

/-- C1 as amended: for a single open-ended range `bytes=A-` on a file of
length L, the empty-range 204 response (with the real instance length L in
Content-Range) is produced exactly when A > L; when A ≤ L the response is
206 and serves bytes [A, L-1] (empty when A = L), with Content-Length
L - A. -/
theorem C1_open_ended_range (content : List Nat) (A : Nat) :
    (content.length < A →
      (handle_get_file_range content (.bytes [.allFrom A])).status = 204 ∧
      (handle_get_file_range content (.bytes [.allFrom A])).contentRange =
        some ((A, content.length), content.length)) ∧
    (A ≤ content.length →
      (handle_get_file_range content (.bytes [.allFrom A])).status = 206 ∧
      (handle_get_file_range content (.bytes [.allFrom A])).body = content.drop A ∧
      (handle_get_file_range content (.bytes [.allFrom A])).contentLength =
        some (content.length - A) ∧
      (A < content.length →
        (handle_get_file_range content (.bytes [.allFrom A])).contentRange =
          some ((A, content.length - 1), content.length))) := by
  constructor
  · intro h
    simp [handle_get_file_range, if_pos h, handle_get_file_empty_range]
  · intro h
    have h2 : ¬ content.length < A := Nat.not_lt.mpr h
    simp [handle_get_file_range, if_neg h2, handle_get_file_right_opened_range,
      handle_get_file_opened_range]

/-- C1 witness: both branches of the amended claim at concrete inputs. -/
theorem C1_witness :
    (1 ≤ ([3, 4] : List Nat).length ∧
      (handle_get_file_range [3, 4] (.bytes [.allFrom 1])).status = 206) ∧
    (([5] : List Nat).length < 2 ∧
      (handle_get_file_range [5] (.bytes [.allFrom 2])).status = 204) :=
  ⟨⟨by decide, ((C1_open_ended_range [3, 4] 1).2 (by decide)).1⟩,
   ⟨by decide, ((C1_open_ended_range [5] 2).1 (by decide)).1⟩⟩

/-- C2: a single closed range `bytes=from-to` with from ≤ to < L answers
206 with exactly to - from + 1 bytes, the slice of the file from offset
`from` through offset `to` inclusive. -/
theorem C2_closed_range (content : List Nat) (frm tto : Nat)
    (h1 : frm ≤ tto) (h2 : tto < content.length) :
    (handle_get_file_range content (.bytes [.fromTo frm tto])).status = 206 ∧
    (handle_get_file_range content (.bytes [.fromTo frm tto])).body =
      (content.drop frm).take (tto + 1 - frm) ∧
    (handle_get_file_range content (.bytes [.fromTo frm tto])).body.length =
      tto - frm + 1 := by
  have hlen : ((content.drop frm).take (tto + 1 - frm)).length = tto + 1 - frm := by
    rw [List.length_take, List.length_drop]
    omega
  have hbody : (handle_get_file_range content (.bytes [.fromTo frm tto])).body =
      (content.drop frm).take (tto + 1 - frm) := by
    simp [handle_get_file_range, handle_get_file_closed_range, read_into, hlen,
      List.drop_replicate]
  refine ⟨rfl, hbody, ?_⟩
  rw [hbody, hlen]
  omega

/-- C2 witness: bytes 1-2 of the 3-byte file [1, 2, 3] are [2, 3]. -/
theorem C2_witness :
    ((1 : Nat) ≤ 2 ∧ 2 < ([1, 2, 3] : List Nat).length) ∧
    (handle_get_file_range [1, 2, 3] (.bytes [.fromTo 1 2])).status = 206 ∧
    (handle_get_file_range [1, 2, 3] (.bytes [.fromTo 1 2])).body = [2, 3] :=
  ⟨⟨by decide, by decide⟩,
   (C2_closed_range [1, 2, 3] 1 2 (by decide) (by decide)).1,
   (C2_closed_range [1, 2, 3] 1 2 (by decide) (by decide)).2.1.trans (by decide)⟩

/-- C10: a single closed range `bytes=from-to` with from ≤ to but to ≥ L is
not rejected with 416 and not truncated: the response is 206 with exactly
to + 1 - from body bytes, the file bytes from offset `from` followed by
zero padding (the buffer is zero-initialized and the single read's count is
never checked). -/
theorem C10_overlong_closed_range (content : List Nat) (frm tto : Nat)
    (h1 : frm ≤ tto) (h2 : content.length ≤ tto) :
    (handle_get_file_range content (.bytes [.fromTo frm tto])).status = 206 ∧
    (handle_get_file_range content (.bytes [.fromTo frm tto])).status ≠ 416 ∧
    (handle_get_file_range content (.bytes [.fromTo frm tto])).body =
      content.drop frm ++ List.replicate ((tto + 1 - frm) - (content.length - frm)) 0 ∧
    (handle_get_file_range content (.bytes [.fromTo frm tto])).body.length =
      tto + 1 - frm := by
  have htake : (content.drop frm).take (tto + 1 - frm) = content.drop frm :=
    List.take_of_length_le (by rw [List.length_drop]; omega)
  have hlen : ((content.drop frm).take (tto + 1 - frm)).length = content.length - frm := by
    rw [htake, List.length_drop]
  have hbody : (handle_get_file_range content (.bytes [.fromTo frm tto])).body =
      content.drop frm ++ List.replicate ((tto + 1 - frm) - (content.length - frm)) 0 := by
    simp [handle_get_file_range, handle_get_file_closed_range, read_into, hlen, htake,
      List.drop_replicate]
  refine ⟨rfl, ?_, hbody, ?_⟩
  · rw [show (handle_get_file_range content (.bytes [.fromTo frm tto])).status = 206 from rfl]
    decide
  · rw [hbody]
    simp only [List.length_append, List.length_drop, List.length_replicate]
    omega

/-- C10 witness: bytes 0-4 of the 2-byte file [1, 2] are [1, 2, 0, 0, 0]. -/
theorem C10_witness :
    ((0 : Nat) ≤ 4 ∧ ([1, 2] : List Nat).length ≤ 4) ∧
    (handle_get_file_range [1, 2] (.bytes [.fromTo 0 4])).status = 206 ∧
    (handle_get_file_range [1, 2] (.bytes [.fromTo 0 4])).body = [1, 2, 0, 0, 0] :=
  ⟨⟨by decide, by decide⟩,
   (C10_overlong_closed_range [1, 2] 0 4 (by decide) (by decide)).1,
   (C10_overlong_closed_range [1, 2] 0 4 (by decide) (by decide)).2.2.1.trans (by decide)⟩

/-- C3: a GET whose URL contains a non-empty segment that fails
percent-decoding answers 400 with the invalid-UTF-8 page, whatever the
filesystem holds (in particular whether the raw path exists); moreover
resolution never aborts: the fold processes the segments of any suffix from
the state reached so far, and a failing segment only skips the path
append while setting the sticky error flag. -/
theorem C3_percent_decode_error (cfg : Cfg) (h : HttpHandler) (fs : FS) (st : EncState)
    (fuel : Nat) (urlPath : List String) (range : Option RangeHeader) (accEnc : Option String)
    (s : String) (hmem : s ∈ urlPath) (hne : s.data.isEmpty = false)
    (hfail : cfg.percent_decode s = none) :
    (parse_requested_path cfg fs fuel h urlPath).2.2 = true ∧
    handle_get cfg h fs st fuel urlPath range accEnc =
      handle_invalid_url "<p>Percent-encoding decoded to invalid UTF-8.</p>" ∧
    (handle_get cfg h fs st fuel urlPath range accEnc).status = 400 ∧
    (∀ l1 l2 : List String,
      parse_requested_path cfg fs fuel h (l1 ++ l2) =
        (l2.filter (fun p => !p.data.isEmpty)).foldl (parse_step cfg fs fuel)
          (parse_requested_path cfg fs fuel h l1)) ∧
    (∀ (stt : Path × Bool × Bool) (pp : String), cfg.percent_decode pp = none →
      parse_step cfg fs fuel stt pp =
        ((resolve_links fs fuel stt.1 stt.2.1).1, (resolve_links fs fuel stt.1 stt.2.1).2,
          true)) := by
  have herr : (parse_requested_path cfg fs fuel h urlPath).2.2 = true := by
    apply parse_fold_err_of_fail cfg fs fuel s hfail
    exact List.mem_filter.mpr ⟨hmem, by simp [hne]⟩
  have hresp : handle_get cfg h fs st fuel urlPath range accEnc =
      handle_invalid_url "<p>Percent-encoding decoded to invalid UTF-8.</p>" := by
    simp [handle_get, herr]
  refine ⟨herr, hresp, by rw [hresp]; rfl, ?_, ?_⟩
  · intro l1 l2
    simp [parse_requested_path, List.filter_append, List.foldl_append]
  · intro stt pp hpp
    simp [parse_step, hpp]

/-- C3 witness: with decoding failing on `%FF` and the literal path
root/%FF existing on disk, the GET still answers 400. -/
theorem C3_witness :
    ("%FF" ∈ ["%FF"] ∧ cfgFail.percent_decode "%FF" = none ∧
      fsRaw.exists_ ["root", "%FF"] = true) ∧
    (handle_get cfgFail hPlain fsRaw {} 5 ["%FF"] none none).status = 400 :=
  ⟨⟨by decide, by decide, by decide⟩,
   (C3_percent_decode_error cfgFail hPlain fsRaw {} 5 ["%FF"] none none "%FF"
      (by decide) (by decide) (by decide)).2.2.1⟩

/-- C4: when resolution followed a symlink and follow_symlinks is disabled,
the GET answers exactly the nonexistent-entity 404 response, even though
the resolved target exists. -/
theorem C4_symlink_not_followed (cfg : Cfg) (h : HttpHandler) (fs : FS) (st : EncState)
    (fuel : Nat) (urlPath : List String) (range : Option RangeHeader) (accEnc : Option String)
    (req_p : Path)
    (hp : parse_requested_path cfg fs fuel h urlPath = (req_p, true, false))
    (hfollow : h.follow_symlinks = false)
    (hexists : fs.exists_ req_p = true) :
    handle_get cfg h fs st fuel urlPath range accEnc = handle_nonexistant urlPath ∧
    (handle_get cfg h fs st fuel urlPath range accEnc).status = 404 := by
  have hresp : handle_get cfg h fs st fuel urlPath range accEnc = handle_nonexistant urlPath := by
    simp [handle_get, hp, hfollow, hexists]
  exact ⟨hresp, by rw [hresp]; rfl⟩

/-- C4 witness: root/a is a symlink to the existing file tgt; with
follow_symlinks disabled the GET answers 404. -/
theorem C4_witness :
    (parse_requested_path cfgW fsLink 5 hPlain ["a"] = (["tgt"], true, false) ∧
      hPlain.follow_symlinks = false ∧ fsLink.exists_ ["tgt"] = true) ∧
    (handle_get cfgW hPlain fsLink {} 5 ["a"] none none).status = 404 :=
  ⟨⟨by decide, rfl, by decide⟩,
   (C4_symlink_not_followed cfgW hPlain fsLink {} 5 ["a"] none none ["tgt"]
      (by decide) rfl (by decide)).2⟩

/-- C6: an accepted PUT (writes enabled, not a directory, no
file-as-directory conflict, no Content-Range) answers 201 when the
destination did not previously exist and 204 when it did, existence being
judged on the pre-request filesystem; afterwards the destination exists and
holds the uploaded bytes. -/
theorem C6_put_status (cfg : Cfg) (h : HttpHandler) (fs : FS) (fuel : Nat)
    (urlPath : List String) (hasContentRange : Bool) (body : List Nat)
    (td req_p : Path) (sk : Bool)
    (hw : h.writes_temp_dir = some td)
    (hp : parse_requested_path cfg fs fuel h urlPath = (req_p, sk, false))
    (hdir : fs.isDir req_p = false)
    (hfad : detect_file_as_dir fs req_p = false)
    (hcr : hasContentRange = false) :
    ((fs.exists_ req_p = false →
        (handle_put cfg h fs fuel urlPath hasContentRange body).1.status = 201) ∧
      (fs.exists_ req_p = true →
        (handle_put cfg h fs fuel urlPath hasContentRange body).1.status = 204)) ∧
    ((handle_put cfg h fs fuel urlPath hasContentRange body).2).exists_ req_p = true ∧
    ((handle_put cfg h fs fuel urlPath hasContentRange body).2).content req_p = body := by
  have hws : h.writes_temp_dir.isNone = false := by rw [hw]; rfl
  have hput : handle_put cfg h fs fuel urlPath hasContentRange body =
      handle_put_file h fs req_p body := by
    simp [handle_put, hws, hp, hdir, hfad, hcr]
  rw [hput]
  refine ⟨⟨?_, ?_⟩, ?_, ?_⟩
  · intro hex; simp [handle_put_file, hex]
  · intro hex; simp [handle_put_file, hex]
  · simp [handle_put_file, fs_set_file]
  · simp [handle_put_file, fs_set_file, fs_mkdirs]

/-- C6 witness: a PUT of [5, 6] to the fresh path root/x.txt answers 201
and materializes the bytes. -/
theorem C6_witness :
    (hWrites.writes_temp_dir = some ["tmp"] ∧
      parse_requested_path cfgW fsRoot 5 hWrites ["x.txt"] =
        (["root", "x.txt"], false, false) ∧
      fsRoot.exists_ ["root", "x.txt"] = false) ∧
    (handle_put cfgW hWrites fsRoot 5 ["x.txt"] false [5, 6]).1.status = 201 ∧
    ((handle_put cfgW hWrites fsRoot 5 ["x.txt"] false [5, 6]).2).content ["root", "x.txt"] =
      [5, 6] :=
  ⟨⟨rfl, by decide, by decide⟩,
   ((C6_put_status cfgW hWrites fsRoot 5 ["x.txt"] false [5, 6] ["tmp"] ["root", "x.txt"]
         false rfl (by decide) (by decide) (by decide) rfl).1).1 (by decide),
   (C6_put_status cfgW hWrites fsRoot 5 ["x.txt"] false [5, 6] ["tmp"] ["root", "x.txt"]
       false rfl (by decide) (by decide) (by decide) rfl).2.2⟩

/-- C7: every directory listing is pairwise ordered by the comparator on
the key (is_file, lowercase name) — directories before files, names
case-insensitively ascending within a group — and on the example directory
containing file B.txt, directory a, and file A.txt the order is
a, A.txt, B.txt. -/
theorem C7_listing_order :
    (∀ (h : HttpHandler) (es : List DirEntry),
      (dir_listing_entries h es).Pairwise (fun a b => entry_le a b = true)) ∧
    (dir_listing_entries hPlain
        [⟨"B.txt", true, false⟩, ⟨"a", false, false⟩, ⟨"A.txt", true, false⟩]).map
      DirEntry.name = ["a", "A.txt", "B.txt"] := by
  constructor
  · intro h es
    exact pairwise_sorted_by entry_le entry_le_trans entry_le_total _
  · decide

/-- C9, counterexample: the claim makes the size window inclusive of both
endpoints, but the gate of ops.rs line 347 is strict (`flen > MIN` and
`flen < MAX`): a 4-byte file with MIN_ENCODING_SIZE = 4, an encoded temp
dir, and a non-blacklisted extension is claimed eligible yet the code
serves it raw. -/
theorem C9_counterexample :
    hEnc.encoded_temp_dir.isSome = true ∧
    cfgW.minEncodingSize ≤ (fsFile.content ["root", "f"]).length ∧
    (fsFile.content ["root", "f"]).length ≤ cfgW.maxEncodingSize ∧
    extension_not_blacklisted cfgW (path_extension ["root", "f"]) = true ∧
    encoding_eligible cfgW hEnc (fsFile.content ["root", "f"]).length
      (path_extension ["root", "f"]) = false ∧
    (handle_get_file cfgW hEnc fsFile {} ["root", "f"] (some "gzip")).1 =
      identity_file_response (fsFile.content ["root", "f"]) ∧
    (handle_get_file cfgW hEnc fsFile {} ["root", "f"] (some "gzip")).1.contentEncoding =
      none := by
  decide

/-- C9 as amended: the compressed-serving path is taken iff an encoded temp
dir is configured, the file size lies strictly inside the configured
(min, max) window (exclusive of both endpoints), and the extension is not
blacklisted under case-insensitive comparison (a missing extension counts
as not blacklisted); otherwise the file is served raw with status 200,
Last-Modified, and Accept-Ranges. -/
theorem C9_eligibility_gate (cfg : Cfg) (h : HttpHandler) (fs : FS) (st : EncState)
    (req_p : Path) (accEnc : Option String) :
    (encoding_eligible cfg h (fs.content req_p).length (path_extension req_p) = true ↔
      (h.encoded_temp_dir.isSome = true ∧
        cfg.minEncodingSize < (fs.content req_p).length ∧
        (fs.content req_p).length < cfg.maxEncodingSize ∧
        extension_not_blacklisted cfg (path_extension req_p) = true)) ∧
    extension_not_blacklisted cfg none = true ∧
    (encoding_eligible cfg h (fs.content req_p).length (path_extension req_p) = false →
      handle_get_file cfg h fs st req_p accEnc =
        (identity_file_response (fs.content req_p), st)) ∧
    (encoding_eligible cfg h (fs.content req_p).length (path_extension req_p) = true →
      handle_get_file cfg h fs st req_p accEnc =
        handle_get_file_encoded cfg h fs st req_p accEnc) := by
  refine ⟨?_, rfl, ?_, ?_⟩
  · simp [encoding_eligible, Bool.and_eq_true, decide_eq_true_iff, and_assoc]
  · intro hg; simp [handle_get_file, hg]
  · intro hg; simp [handle_get_file, hg]

/-- C9 witness: the boundary-size file is ineligible and served raw. -/
theorem C9_witness :
    encoding_eligible cfgW hEnc (fsFile.content ["root", "f"]).length
      (path_extension ["root", "f"]) = false ∧
    handle_get_file cfgW hEnc fsFile {} ["root", "f"] none =
      (identity_file_response (fsFile.content ["root", "f"]), {}) :=
  ⟨by decide, (C9_eligibility_gate cfgW hEnc fsFile {} ["root", "f"] none).2.2.1 (by decide)⟩

/-- C5: on a file-cache miss with a negotiated encoding and a successful
codec run, if the gain is below the threshold then a negative entry
(original path, is-compressed = false) is recorded under the (digest,
encoding) key, the artifact is removed from the encoded temp dir, the
request is answered with the original bytes, Last-Modified, and no
Content-Encoding, and a repeated request answers identically from the
(unchanged) resulting state; if the gain is at or above the threshold, a
positive entry is recorded and the compressed bytes are served with
Content-Encoding set and no Last-Modified. -/
theorem C5_encoding_cache (cfg : Cfg) (h : HttpHandler) (fs : FS) (st : EncState)
    (req_p : Path) (enc : String) (comp : List Nat)
    (hmiss : st.cacheFs.lookup (file_hash fs req_p, enc) = none)
    (hcomp : cfg.encode_file (fs.content req_p) enc = some comp)
    (hdisk_req : st.encDisk.lookup req_p = none)
    (hdisk_rp : st.encDisk.lookup
      (resp_path cfg h (file_hash fs req_p) (path_extension req_p) enc) = none) :
    ((((fs.content req_p).length : ℚ) / (comp.length : ℚ) < cfg.minEncodingGain →
      ((handle_get_file_encoded cfg h fs st req_p (some enc)).2).cacheFs.lookup
          (file_hash fs req_p, enc) = some (req_p, false) ∧
      ((handle_get_file_encoded cfg h fs st req_p (some enc)).2).encDisk.lookup
          (resp_path cfg h (file_hash fs req_p) (path_extension req_p) enc) = none ∧
      (handle_get_file_encoded cfg h fs st req_p (some enc)).1 =
        identity_file_response (fs.content req_p) ∧
      handle_get_file_encoded cfg h fs
          (handle_get_file_encoded cfg h fs st req_p (some enc)).2 req_p (some enc) =
        (identity_file_response (fs.content req_p),
          (handle_get_file_encoded cfg h fs st req_p (some enc)).2))) ∧
    (¬ (((fs.content req_p).length : ℚ) / (comp.length : ℚ) < cfg.minEncodingGain) →
      ((handle_get_file_encoded cfg h fs st req_p (some enc)).2).cacheFs.lookup
          (file_hash fs req_p, enc) =
        some (resp_path cfg h (file_hash fs req_p) (path_extension req_p) enc, true) ∧
      (handle_get_file_encoded cfg h fs st req_p (some enc)).1 =
        { status := 200, body := comp, contentEncoding := some enc,
          acceptRangesBytes := true }) := by
  constructor
  · intro hgain
    have hrun : handle_get_file_encoded cfg h fs st req_p (some enc) =
        (identity_file_response (fs.content req_p),
          { cacheFs := ((file_hash fs req_p, enc), (req_p, false)) :: st.cacheFs
            encDisk :=
              ((resp_path cfg h (file_hash fs req_p) (path_extension req_p) enc, comp) ::
                st.encDisk).eraseP
                (fun e =>
                  e.1 == resp_path cfg h (file_hash fs req_p) (path_extension req_p) enc) }) := by
      simp only [handle_get_file_encoded, hmiss, hcomp, if_pos hgain]
    have hdel : (((resp_path cfg h (file_hash fs req_p) (path_extension req_p) enc, comp) ::
        st.encDisk).eraseP
          (fun e => e.1 == resp_path cfg h (file_hash fs req_p) (path_extension req_p) enc)) =
        st.encDisk :=
      List.eraseP_cons_of_pos (by simp)
    have hlook : (((file_hash fs req_p, enc), (req_p, false)) :: st.cacheFs).lookup
        (file_hash fs req_p, enc) = some (req_p, false) := by
      simp [List.lookup]
    refine ⟨?_, ?_, ?_, ?_⟩
    · rw [hrun]; exact hlook
    · rw [hrun]
      simp only [hdel]
      exact hdisk_rp
    · rw [hrun]
    · rw [hrun]
      simp only [handle_get_file_encoded, hdel, hlook, diskContent, hdisk_req,
        identity_file_response]
  · intro hgain
    have hrun : handle_get_file_encoded cfg h fs st req_p (some enc) =
        ({ status := 200, body := comp, contentEncoding := some enc,
            acceptRangesBytes := true },
          { cacheFs :=
              ((file_hash fs req_p, enc),
                (resp_path cfg h (file_hash fs req_p) (path_extension req_p) enc, true)) ::
                st.cacheFs
            encDisk :=
              (resp_path cfg h (file_hash fs req_p) (path_extension req_p) enc, comp) ::
                st.encDisk }) := by
      simp only [handle_get_file_encoded, hmiss, hcomp, if_neg hgain]
    rw [hrun]
    exact ⟨by simp [List.lookup], rfl⟩

/-- C5 witness: compressing the 5-byte file to one byte under a gain
threshold of 6 is rejected, and the negative entry lands in the cache. -/
theorem C5_witness :
    (({} : EncState).cacheFs.lookup (file_hash fsFile5 ["root", "f"], "gzip") = none ∧
      cfgW.encode_file (fsFile5.content ["root", "f"]) "gzip" = some [9] ∧
      (((fsFile5.content ["root", "f"]).length : ℚ) / (([9] : List Nat).length : ℚ) <
        cfgW.minEncodingGain)) ∧
    ((handle_get_file_encoded cfgW hEnc fsFile5 {} ["root", "f"] (some "gzip")).2).cacheFs.lookup
        (file_hash fsFile5 ["root", "f"], "gzip") = some (["root", "f"], false) := by
  have hlen : (fsFile5.content ["root", "f"]).length = 5 := by decide
  have hgain : (((fsFile5.content ["root", "f"]).length : ℚ) / (([9] : List Nat).length : ℚ) <
      cfgW.minEncodingGain) := by
    rw [hlen]
    show ((5 : Nat) : ℚ) / ((1 : Nat) : ℚ) < (6 : ℚ)
    norm_num
  exact ⟨⟨rfl, rfl, hgain⟩,
    ((C5_encoding_cache cfgW hEnc fsFile5 {} ["root", "f"] "gzip" [9] rfl rfl rfl rfl).1
        hgain).1⟩

/-- C8, counterexample: the claim covers every inclusive port range, but
the range end `up_to + 1` is computed in 16-bit arithmetic, so for
up_to = 65535 the loop body never runs: with a bind that succeeds on every
port (in particular on 8000), the function still answers "no free ports"
instead of the first successful bind. -/
theorem C8_counterexample :
    try_ports (fun _ => none) 8000 65535 = .ioErr (some "no free ports") ∧
    ¬ try_ports (fun _ => none) 8000 65535 = .listening 8000 := by
  constructor
  · rfl
  · decide

/-- C8 as amended: for up_to < 2^16 - 1, `try_ports` scans the ports in
ascending order and answers the first successful bind; a bind failure whose
message does not contain "port" (the code's test for the port being in use)
is answered immediately with a bare error; and if every port of the range
fails with an in-use message the answer is the distinct "no free ports"
error. -/
theorem C8_try_ports (bind : Nat → Option String) (frm up_tto : Nat)
    (hup : up_tto < 2 ^ 16 - 1) :
    (∀ q, frm ≤ q → q ≤ up_tto → bind q = none →
      (∀ p, frm ≤ p → p < q → ∃ m, bind p = some m ∧ contains_sub m.data "port".data = true) →
      try_ports bind frm up_tto = .listening q) ∧
    (∀ q m, frm ≤ q → q ≤ up_tto → bind q = some m →
      contains_sub m.data "port".data = false →
      (∀ p, frm ≤ p → p < q →
        ∃ m2, bind p = some m2 ∧ contains_sub m2.data "port".data = true) →
      try_ports bind frm up_tto = .ioErr none) ∧
    ((∀ p, frm ≤ p → p ≤ up_tto →
        ∃ m, bind p = some m ∧ contains_sub m.data "port".data = true) →
      try_ports bind frm up_tto = .ioErr (some "no free ports")) := by
  have hmod : (up_tto + 1) % 2 ^ 16 = up_tto + 1 := Nat.mod_eq_of_lt (by omega)
  have hports : ∀ q, frm ≤ q → q ≤ up_tto →
      List.range' frm (up_tto + 1 - frm) =
        List.range' frm (q - frm) ++ q :: List.range' (q + 1) (up_tto - q) := by
    intro q hfq hqu
    have h2 : up_tto + 1 - frm = (up_tto - q + 1) + (q - frm) := by omega
    rw [h2, ← List.range'_append frm (q - frm) (up_tto - q + 1) 1]
    have h1 : frm + 1 * (q - frm) = q := by omega
    rw [h1, List.range'_succ]
  have hmem : ∀ q, ∀ p, p ∈ List.range' frm (q - frm) → frm ≤ p ∧ p < q := by
    intro q p hp
    rw [List.mem_range'] at hp
    obtain ⟨i, hi, rfl⟩ := hp
    omega
  refine ⟨?_, ?_, ?_⟩
  · intro q hfq hqu hbq hprev
    rw [try_ports, hmod, hports q hfq hqu]
    exact try_ports_loop_first_success bind _ q _
      (fun p hp => hprev p (hmem q p hp).1 (hmem q p hp).2) hbq
  · intro q m hfq hqu hbq hcm hprev
    rw [try_ports, hmod, hports q hfq hqu]
    exact try_ports_loop_fatal bind _ q _ m
      (fun p hp => hprev p (hmem q p hp).1 (hmem q p hp).2) hbq hcm
  · intro hall
    rw [try_ports, hmod]
    apply try_ports_loop_all_in_use
    intro p hp
    rw [List.mem_range'] at hp
    obtain ⟨i, hi, rfl⟩ := hp
    exact hall _ (by omega) (by omega)

/-- C8 witness: with port 8000 busy (message containing "port") and port
8001 free, the scan of range 8000-8005 answers a listener on 8001. -/
theorem C8_witness :
    (8005 : Nat) < 2 ^ 16 - 1 ∧
    try_ports (fun p => if p == 8001 then none else some "port busy") 8000 8005 =
      .listening 8001 :=
  ⟨by norm_num,
   (C8_try_ports (fun p => if p == 8001 then none else some "port busy") 8000 8005
        (by norm_num)).1 8001 (by norm_num) (by norm_num) (by decide)
     (fun p h1 h2 =>
       ⟨"port busy", by
          have hp : p = 8000 := by omega
          subst hp
          rfl, by decide⟩)⟩

end Https
